import Mathlib

/-!
Verification development for the psyengine repository.

The parts of the code embedded here:
* the fixed-timestep main loop of SdlRuntime::run (src/src/sdl_runtime.cpp,
  mirrored by SdlGame::run in src/src/sdl_game.cpp), including its event
  pump SdlRuntime::handleEvents;
* the input manager (src/src/input_manager.cpp together with
  src/include/psyengine/input_manager.hpp and input_manager.tpp): button
  records, per-tick state recomputation, event handling, axis storage and
  normalization, and the action-binding queries.

Real arithmetic (C++ float/double) is embedded as exact rationals; machine
tick counts (Uint64 TimePoint values) are embedded as rationals as well,
with the performance-counter frequency carried as an explicit positive
parameter where the code divides by it.  Hash maps (std::unordered_map) are
embedded as association lists with at most the same observable behaviour:
lookup, insert-or-update via operator[], erase, and whole-map iteration.
-/

namespace PsyEngine

/-- Events relevant to SdlRuntime::handleEvents and InputManager::handleEvent
(SDL_Event, restricted to the event types the code inspects).  Key codes,
mouse buttons, gamepad buttons and axes, and joystick ids are embedded as
naturals; axis values (Sint16) as integers. -/
inductive SdlEvent where
  | quit
  | keyDown (key : Nat) (rep : Bool)
  | keyUp (key : Nat)
  | mouseDown (button : Nat)
  | mouseUp (button : Nat)
  | gamepadDown (button : Nat) (which : Nat)
  | gamepadUp (button : Nat) (which : Nat)
  | gamepadAxis (which : Nat) (axis : Nat) (value : Int)
  | gamepadRemoved (which : Nat)
  | other
deriving DecidableEq, Repr

/-- The truncating remainder std::fmod, as used at sdl_runtime.cpp:132 with
a nonnegative dividend and positive divisor; on such arguments std::fmod
equals the floor-based remainder x - y * ⌊x / y⌋. -/
def fmod (x y : ℚ) : ℚ :=
  x - y * (⌊x / y⌋ : ℤ)

/-- Loop state of SdlRuntime::run: the accumulator, the running_ flag and
the lagging_ flag (sdl_runtime.cpp:101, 107, 134, 148). -/
structure LoopState where
  accumulatedTime : ℚ
  running : Bool
  lagging : Bool
deriving DecidableEq, Repr

/-- The loop state at entry of SdlRuntime::run: accumulatedTime = 0.0,
running_ set to true, lagging_ initially false. -/
def initialLoopState : LoopState :=
  { accumulatedTime := 0, running := true, lagging := false }

/-- Observable calls a single iteration of SdlRuntime::run makes:
the number of fixedUpdate invocations, whether update and render ran,
the interpolation factor passed to render, and the events the pump
forwarded to the state dispatcher before it stopped. -/
structure TickOutput where
  fixedUpdateCount : Nat
  updateRan : Bool
  renderRan : Bool
  interpolationFactor : ℚ
  forwarded : List SdlEvent
deriving DecidableEq, Repr

/-- SdlRuntime::handleEvents (sdl_runtime.cpp:210-240): poll events in
order; a quit event sets running_ = false and returns at once, so the
remaining events are not dequeued; every other event is forwarded (to the
input manager when input-relevant, and to the state dispatcher always).
Returns the running_ flag after the pump and the forwarded events. -/
def handleEvents : List SdlEvent → Bool × List SdlEvent
  | [] => (true, [])
  | SdlEvent.quit :: _ => (false, [])
  | e :: rest =>
      let r := handleEvents rest
      (r.1, e :: r.2)

/-- The catch-up while loop of SdlRuntime::run (sdl_runtime.cpp:121-126):
while accumulatedTime >= fixedTimeStep and accumulatedUpdates <
maxUpdatesPerFrame, subtract fixedTimeStep and invoke fixedUpdate.  The
first argument is the number of still-allowed updates; returns the drained
accumulator and the number of fixedUpdate invocations. -/
def catchUp (fixedTimeStep : ℚ) : Nat → ℚ → ℚ × Nat
  | 0, acc => (acc, 0)
  | n + 1, acc =>
      if fixedTimeStep ≤ acc then
        let r := catchUp fixedTimeStep n (acc - fixedTimeStep)
        (r.1, r.2 + 1)
      else
        (acc, 0)

/-- One iteration of the while loop in SdlRuntime::run
(sdl_runtime.cpp:108-162).  elapsed is the measured wall delta
time::Elapsed(lastTime, now); the code clamps it with
std::min(elapsed, maxFrameDeltaTime), adds it to the accumulator, pumps
events (a quit event clears running_ but the iteration continues), runs the
bounded catch-up loop, applies the lag check (keeping the fmod phase
remainder and setting lagging_ when still a full step behind), then always
calls update(frameDelta) and render(accumulatedTime / fixedTimeStep). -/
def runTick (fixedTimeStep : ℚ) (maxUpdatesPerFrame : Nat) (maxFrameDeltaTime : ℚ)
    (s : LoopState) (elapsed : ℚ) (events : List SdlEvent) : LoopState × TickOutput :=
  let frameDelta := min elapsed maxFrameDeltaTime
  let acc0 := s.accumulatedTime + frameDelta
  let pump := handleEvents events
  let running1 := s.running && pump.1
  let drained := catchUp fixedTimeStep maxUpdatesPerFrame acc0
  let lagged := fixedTimeStep ≤ drained.1
  let accFinal := if lagged then fmod drained.1 fixedTimeStep else drained.1
  let s1 : LoopState := { accumulatedTime := accFinal, running := running1, lagging := lagged }
  (s1, { fixedUpdateCount := drained.2, updateRan := true, renderRan := true,
         interpolationFactor := accFinal / fixedTimeStep, forwarded := pump.2 })

/-- The while (running_) loop of SdlRuntime::run: iterate runTick over a
list of per-frame inputs (measured elapsed time and pending events),
re-checking the running_ flag at the top of each iteration. -/
def runTicks (fixedTimeStep : ℚ) (maxUpdatesPerFrame : Nat) (maxFrameDeltaTime : ℚ) :
    LoopState → List (ℚ × List SdlEvent) → LoopState
  | s, [] => s
  | s, f :: rest =>
      if s.running then
        runTicks fixedTimeStep maxUpdatesPerFrame maxFrameDeltaTime
          (runTick fixedTimeStep maxUpdatesPerFrame maxFrameDeltaTime s f.1 f.2).1 rest
      else
        s

/-- Association-list lookup, embedding std::unordered_map::find. -/
def findA {κ α : Type} [DecidableEq κ] : List (κ × α) → κ → Option α
  | [], _ => none
  | (k, v) :: rest, key => if k = key then some v else findA rest key

/-- Insert-or-update, embedding operator[] followed by a mutation f of the
referenced entry: if the key is present its value becomes f value, else the
pair (key, f default) is inserted. -/
def setA {κ α : Type} [DecidableEq κ] : List (κ × α) → κ → (α → α) → α → List (κ × α)
  | [], key, f, d => [(key, f d)]
  | (k, v) :: rest, key, f, d =>
      if k = key then (k, f v) :: rest else (k, v) :: setA rest key f d

/-- Key removal, embedding std::unordered_map::erase(key). -/
def eraseA {κ α : Type} [DecidableEq κ] : List (κ × α) → κ → List (κ × α)
  | [], _ => []
  | (k, v) :: rest, key =>
      if k = key then eraseA rest key else (k, v) :: eraseA rest key

/-- Apply f to every stored value, embedding the range-for mutation loops of
the InputManager update methods. -/
def mapVals {κ α : Type} (f : α → α) (m : List (κ × α)) : List (κ × α) :=
  m.map fun p => (p.1, f p.2)

/-- InputManager::ButtonState (input_manager.hpp:70-77). -/
inductive ButtonState where
  | Up
  | Down
  | Clicked
  | Held
  | Released
deriving DecidableEq, Repr

/-- InputManager::ButtonData (input_manager.hpp:87-93), with its member
initializers as default field values (pressTime default-constructs to 0). -/
structure ButtonData where
  isDown : Bool := false
  wasDown : Bool := false
  pressTime : ℚ := 0
  state : ButtonState := ButtonState.Up
deriving DecidableEq, Repr

/-- InputManager::AxisData (input_manager.hpp:102-106); value is the raw
Sint16 axis value. -/
structure AxisData where
  value : Int := 0
  scale : ℚ := 1
deriving DecidableEq, Repr

/-- InputManager::Binding (input_manager.hpp:109-128): the variant over
KeyBinding, MouseBinding and GamepadBinding, flattened into one inductive.
The GamepadBinding joystickId field is stored verbatim. -/
inductive Binding where
  | key (key : Nat)
  | mouse (button : Nat)
  | gamepad (button : Nat) (joystickId : Nat)
deriving DecidableEq, Repr

/-- InputManager::Action (input_manager.hpp:130-133). -/
structure Action where
  bindings : List Binding
deriving DecidableEq, Repr

/-- The InputManager state (input_manager.hpp:444-452): the per-device
button maps, the per-joystick nested gamepad maps, the action table and the
hold threshold (constructor sets 0.3f). -/
structure InputManager where
  mouseButtons : List (Nat × ButtonData) := []
  keyboardButtons : List (Nat × ButtonData) := []
  gamepadButtons : List (Nat × List (Nat × ButtonData)) := []
  axes : List (Nat × List (Nat × AxisData)) := []
  actions : List (String × Action) := []
  holdThreshold : ℚ := 3 / 10
deriving DecidableEq, Repr

/-- time::TicksToSeconds (timer.hpp:80-83): tick count divided by the
performance-counter frequency. -/
def ticksToSeconds (freq ticks : ℚ) : ℚ :=
  ticks / freq

namespace InputManager

/-- InputManager::onButtonPress for keyboard (input_manager.cpp:294-299):
keyboardButtons_[key].isDown = true, .pressTime = now. -/
def onKeyPress (m : InputManager) (key : Nat) (now : ℚ) : InputManager :=
  { m with
      keyboardButtons := setA m.keyboardButtons key (fun b => { b with isDown := true, pressTime := now }) {} }

/-- InputManager::onButtonRelease for keyboard (input_manager.cpp:301-305). -/
def onKeyRelease (m : InputManager) (key : Nat) : InputManager :=
  { m with
      keyboardButtons := setA m.keyboardButtons key (fun b => { b with isDown := false }) {} }

/-- InputManager::onButtonPress for gamepad (input_manager.cpp:307-313):
gamepadButtons_[joystickId][button].isDown = true, .pressTime = now. -/
def onGamepadPress (m : InputManager) (button : Nat) (now : ℚ) (joystickId : Nat) :
    InputManager :=
  { m with
      gamepadButtons := setA m.gamepadButtons joystickId
        (fun inner => setA inner button (fun b => { b with isDown := true, pressTime := now }) {})
        [] }

/-- InputManager::onButtonRelease for gamepad (input_manager.cpp:315-320). -/
def onGamepadRelease (m : InputManager) (button : Nat) (joystickId : Nat) : InputManager :=
  { m with
      gamepadButtons := setA m.gamepadButtons joystickId
        (fun inner => setA inner button (fun b => { b with isDown := false }) {})
        [] }

/-- InputManager::onButtonPress for mouse (input_manager.cpp:322-327). -/
def onMousePress (m : InputManager) (button : Nat) (now : ℚ) : InputManager :=
  { m with
      mouseButtons := setA m.mouseButtons button (fun b => { b with isDown := true, pressTime := now }) {} }

/-- InputManager::onButtonRelease for mouse (input_manager.cpp:329-333). -/
def onMouseRelease (m : InputManager) (button : Nat) : InputManager :=
  { m with
      mouseButtons := setA m.mouseButtons button (fun b => { b with isDown := false }) {} }

/-- InputManager::handleEvent (input_manager.cpp:140-187).  The code stamps
time::Now() at key/mouse/gamepad presses; here now is that stamp.  A key
down event with the repeat flag set is skipped; an axis motion stores the
raw value; a gamepad-removed event erases both per-joystick maps; all other
event types fall to the default case and leave the state unchanged. -/
def handleEvent (m : InputManager) (e : SdlEvent) (now : ℚ) : InputManager :=
  match e with
  | SdlEvent.keyDown key rep => if rep then m else m.onKeyPress key now
  | SdlEvent.keyUp key => m.onKeyRelease key
  | SdlEvent.mouseDown button => m.onMousePress button now
  | SdlEvent.mouseUp button => m.onMouseRelease button
  | SdlEvent.gamepadDown button which => m.onGamepadPress button now which
  | SdlEvent.gamepadUp button which => m.onGamepadRelease button which
  | SdlEvent.gamepadAxis which axis value =>
      { m with
          axes := setA m.axes which (fun inner => setA inner axis (fun a => { a with value := value }) {}) [] }
  | SdlEvent.gamepadRemoved which =>
      { m with gamepadButtons := eraseA m.gamepadButtons which, axes := eraseA m.axes which }
  | _ => m

end InputManager

/-- The per-record state recomputation shared verbatim by
InputManager::updateGamepads, updateMouseButtons and updateKeyboardButtons
(input_manager.cpp:381-497): heldTime = TicksToSeconds(now - pressTime);
isDown gives Held when heldTime >= holdThreshold else Down; otherwise
wasDown gives Clicked when heldTime < holdThreshold else Released;
otherwise the state stays Up; finally wasDown = isDown. -/
def updateButton (freq holdThreshold now : ℚ) (b : ButtonData) : ButtonData :=
  let st :=
    if b.isDown then
      if holdThreshold ≤ ticksToSeconds freq (now - b.pressTime) then ButtonState.Held
      else ButtonState.Down
    else if b.wasDown then
      if ticksToSeconds freq (now - b.pressTime) < holdThreshold then ButtonState.Clicked
      else ButtonState.Released
    else ButtonState.Up
  { b with state := st, wasDown := b.isDown }

namespace InputManager

/-- InputManager::updateGamepads (input_manager.cpp:381-421): apply the
recomputation to every record of every joystick. -/
def updateGamepads (m : InputManager) (freq now : ℚ) : InputManager :=
  { m with
      gamepadButtons := mapVals (mapVals (updateButton freq m.holdThreshold now)) m.gamepadButtons }

/-- InputManager::updateMouseButtons (input_manager.cpp:423-459). -/
def updateMouseButtons (m : InputManager) (freq now : ℚ) : InputManager :=
  { m with mouseButtons := mapVals (updateButton freq m.holdThreshold now) m.mouseButtons }

/-- InputManager::updateKeyboardButtons (input_manager.cpp:461-497). -/
def updateKeyboardButtons (m : InputManager) (freq now : ℚ) : InputManager :=
  { m with keyboardButtons := mapVals (updateButton freq m.holdThreshold now) m.keyboardButtons }

/-- InputManager::update (input_manager.cpp:189-196): one now stamp, then
the three per-device recomputations. -/
def update (m : InputManager) (freq now : ℚ) : InputManager :=
  ((m.updateGamepads freq now).updateMouseButtons freq now).updateKeyboardButtons freq now

/-- InputManager::getButtonState for a key (input_manager.cpp:348-355):
absent records read as Up. -/
def getKeyButtonState (m : InputManager) (key : Nat) : ButtonState :=
  match findA m.keyboardButtons key with
  | none => ButtonState.Up
  | some b => b.state

/-- InputManager::getButtonState for a mouse button
(input_manager.cpp:357-364). -/
def getMouseButtonState (m : InputManager) (button : Nat) : ButtonState :=
  match findA m.mouseButtons button with
  | none => ButtonState.Up
  | some b => b.state

/-- InputManager::getButtonState for a gamepad button
(input_manager.cpp:335-346): looks up the map keyed by the joystick id
passed in, then the button; absent either way reads as Up. -/
def getGamepadButtonState (m : InputManager) (button joystickId : Nat) : ButtonState :=
  match findA m.gamepadButtons joystickId with
  | none => ButtonState.Up
  | some inner =>
      match findA inner button with
      | none => ButtonState.Up
      | some b => b.state

/-- InputManager::isClicked(SDL_Keycode) (input_manager.cpp:198-201). -/
def isKeyClicked (m : InputManager) (key : Nat) : Bool :=
  m.getKeyButtonState key == ButtonState.Clicked

/-- InputManager::isHeld(SDL_Keycode) (input_manager.cpp:203-206). -/
def isKeyHeld (m : InputManager) (key : Nat) : Bool :=
  m.getKeyButtonState key == ButtonState.Held

/-- InputManager::isDown(SDL_Keycode) (input_manager.cpp:208-212). -/
def isKeyDown (m : InputManager) (key : Nat) : Bool :=
  m.getKeyButtonState key == ButtonState.Down || m.getKeyButtonState key == ButtonState.Held

/-- InputManager::isReleased(SDL_Keycode) (input_manager.cpp:214-217). -/
def isKeyReleased (m : InputManager) (key : Nat) : Bool :=
  m.getKeyButtonState key == ButtonState.Released

/-- InputManager::isClicked(SDL_GamepadButton, SDL_JoystickID)
(input_manager.cpp:219-222). -/
def isGamepadClicked (m : InputManager) (button joystickId : Nat) : Bool :=
  m.getGamepadButtonState button joystickId == ButtonState.Clicked

/-- InputManager::isHeld(SDL_GamepadButton, SDL_JoystickID)
(input_manager.cpp:224-227). -/
def isGamepadHeld (m : InputManager) (button joystickId : Nat) : Bool :=
  m.getGamepadButtonState button joystickId == ButtonState.Held

/-- InputManager::isDown(SDL_GamepadButton, SDL_JoystickID)
(input_manager.cpp:229-233). -/
def isGamepadDown (m : InputManager) (button joystickId : Nat) : Bool :=
  m.getGamepadButtonState button joystickId == ButtonState.Down ||
    m.getGamepadButtonState button joystickId == ButtonState.Held

/-- InputManager::isReleased(SDL_GamepadButton, SDL_JoystickID)
(input_manager.cpp:235-238). -/
def isGamepadReleased (m : InputManager) (button joystickId : Nat) : Bool :=
  m.getGamepadButtonState button joystickId == ButtonState.Released

/-- InputManager::isClicked(Uint8) (input_manager.cpp:240-243). -/
def isMouseClicked (m : InputManager) (button : Nat) : Bool :=
  m.getMouseButtonState button == ButtonState.Clicked

/-- InputManager::isHeld(Uint8) (input_manager.cpp:245-248). -/
def isMouseHeld (m : InputManager) (button : Nat) : Bool :=
  m.getMouseButtonState button == ButtonState.Held

/-- InputManager::isDown(Uint8) (input_manager.cpp:250-254). -/
def isMouseDown (m : InputManager) (button : Nat) : Bool :=
  m.getMouseButtonState button == ButtonState.Down ||
    m.getMouseButtonState button == ButtonState.Held

/-- InputManager::isReleased(Uint8) (input_manager.cpp:256-259). -/
def isMouseReleased (m : InputManager) (button : Nat) : Bool :=
  m.getMouseButtonState button == ButtonState.Released

/-- InputManager::getAxisRaw (input_manager.cpp:261-271): 0 for unknown
(joystickId, axis) pairs. -/
def getAxisRaw (m : InputManager) (gamepadAxis joystickId : Nat) : Int :=
  match findA m.axes joystickId with
  | none => 0
  | some inner =>
      match findA inner gamepadAxis with
      | none => 0
      | some a => a.value

/-- InputManager::getAxisNormalized (input_manager.cpp:273-282): the raw
value times INV_POS = 1/SDL_JOYSTICK_AXIS_MAX = 1/32767 when raw >= 0,
times INV_NEG = 1/(-SDL_JOYSTICK_AXIS_MIN) = 1/32768 when raw < 0; no
division happens at query time. -/
def getAxisNormalized (m : InputManager) (gamepadAxis joystickId : Nat) : ℚ :=
  let raw := m.getAxisRaw gamepadAxis joystickId
  let scale : ℚ := if 0 ≤ raw then 1 / 32767 else 1 / 32768
  (raw : ℚ) * scale

/-- InputManager::bindActionKey (input_manager.cpp:16-19): append to the
binding list of actions_[actionName]. -/
def bindActionKey (m : InputManager) (actionName : String) (key : Nat) : InputManager :=
  { m with
      actions := setA m.actions actionName (fun a => { bindings := a.bindings ++ [Binding.key key] })
        { bindings := [] } }

/-- InputManager::bindActionMouseButton (input_manager.cpp:21-24). -/
def bindActionMouseButton (m : InputManager) (actionName : String) (button : Nat) :
    InputManager :=
  { m with
      actions := setA m.actions actionName (fun a => { bindings := a.bindings ++ [Binding.mouse button] })
        { bindings := [] } }

/-- InputManager::bindActionGamepadButton (input_manager.cpp:26-30); the
joystickId defaults to 0 at the call sites. -/
def bindActionGamepadButton (m : InputManager) (actionName : String)
    (button joystickId : Nat) : InputManager :=
  { m with
      actions := setA m.actions actionName
        (fun a => { bindings := a.bindings ++ [Binding.gamepad button joystickId] })
        { bindings := [] } }

end InputManager

/-- The binding iteration of InputManager::forEachBinding
(input_manager.tpp:4-16): test bindings in order and return true at the
first binding the predicate accepts. -/
def anyBinding (f : Binding → Bool) : List Binding → Bool
  | [] => false
  | b :: rest => if f b then true else anyBinding f rest

namespace InputManager

/-- InputManager::forEachBinding (input_manager.tpp:4-16): absent action
names return false; otherwise iterate the action's bindings. -/
def forEachBinding (m : InputManager) (actionName : String) (f : Binding → Bool) : Bool :=
  match findA m.actions actionName with
  | none => false
  | some act => anyBinding f act.bindings

/-- The visitor of InputManager::isActionClicked (input_manager.cpp:34-56):
dispatch on the binding alternative. -/
def bindingClicked (m : InputManager) : Binding → Bool
  | Binding.key k => m.isKeyClicked k
  | Binding.mouse b => m.isMouseClicked b
  | Binding.gamepad b jid => m.isGamepadClicked b jid

/-- The visitor of InputManager::isActionHeld (input_manager.cpp:61-83). -/
def bindingHeld (m : InputManager) : Binding → Bool
  | Binding.key k => m.isKeyHeld k
  | Binding.mouse b => m.isMouseHeld b
  | Binding.gamepad b jid => m.isGamepadHeld b jid

/-- The visitor of InputManager::isActionDown (input_manager.cpp:88-110). -/
def bindingDown (m : InputManager) : Binding → Bool
  | Binding.key k => m.isKeyDown k
  | Binding.mouse b => m.isMouseDown b
  | Binding.gamepad b jid => m.isGamepadDown b jid

/-- The visitor of InputManager::isActionReleased
(input_manager.cpp:115-137). -/
def bindingReleased (m : InputManager) : Binding → Bool
  | Binding.key k => m.isKeyReleased k
  | Binding.mouse b => m.isMouseReleased b
  | Binding.gamepad b jid => m.isGamepadReleased b jid

/-- InputManager::isActionClicked (input_manager.cpp:32-57). -/
def isActionClicked (m : InputManager) (actionName : String) : Bool :=
  m.forEachBinding actionName m.bindingClicked

/-- InputManager::isActionHeld (input_manager.cpp:59-84). -/
def isActionHeld (m : InputManager) (actionName : String) : Bool :=
  m.forEachBinding actionName m.bindingHeld

/-- InputManager::isActionDown (input_manager.cpp:86-111). -/
def isActionDown (m : InputManager) (actionName : String) : Bool :=
  m.forEachBinding actionName m.bindingDown

/-- InputManager::isActionReleased (input_manager.cpp:113-138). -/
def isActionReleased (m : InputManager) (actionName : String) : Bool :=
  m.forEachBinding actionName m.bindingReleased

end InputManager

/-! ## Lemmas about the loop model -/

theorem fmod_eq_fract (x y : ℚ) (hy : y ≠ 0) : fmod x y = y * Int.fract (x / y) := by
  unfold fmod Int.fract
  field_simp

theorem fmod_nonneg (x y : ℚ) (hy : 0 < y) : 0 ≤ fmod x y := by
  rw [fmod_eq_fract x y (ne_of_gt hy)]
  exact mul_nonneg hy.le (Int.fract_nonneg _)

theorem fmod_lt (x y : ℚ) (hy : 0 < y) : fmod x y < y := by
  rw [fmod_eq_fract x y (ne_of_gt hy)]
  calc y * Int.fract (x / y) < y * 1 := by
        exact mul_lt_mul_of_pos_left (Int.fract_lt_one _) hy
    _ = y := mul_one y

theorem catchUp_fst_nonneg (step : ℚ) (n : Nat) (acc : ℚ) (h : 0 ≤ acc) :
    0 ≤ (catchUp step n acc).1 := by
  induction n generalizing acc with
  | zero => simpa [catchUp] using h
  | succ k ih =>
      unfold catchUp
      by_cases hc : step ≤ acc
      · simpa [hc] using ih (acc - step) (by linarith)
      · simpa [hc] using h

theorem runTick_acc_bounds (step : ℚ) (maxU : Nat) (maxFD : ℚ) (s : LoopState)
    (elapsed : ℚ) (events : List SdlEvent) (hstep : 0 < step)
    (hacc : 0 ≤ s.accumulatedTime + min elapsed maxFD) :
    0 ≤ (runTick step maxU maxFD s elapsed events).1.accumulatedTime ∧
      (runTick step maxU maxFD s elapsed events).1.accumulatedTime < step := by
  unfold runTick
  dsimp only
  by_cases hlag : step ≤ (catchUp step maxU (s.accumulatedTime + min elapsed maxFD)).1
  · simp only [hlag, if_pos]
    exact ⟨fmod_nonneg _ _ hstep, fmod_lt _ _ hstep⟩
  · simp only [hlag, if_neg, if_false]
    exact ⟨catchUp_fst_nonneg step maxU _ hacc, lt_of_not_le hlag⟩

theorem runTicks_acc_bounds (step : ℚ) (maxU : Nat) (maxFD : ℚ)
    (trace : List (ℚ × List SdlEvent)) (s : LoopState) (hstep : 0 < step)
    (hFD : 0 ≤ maxFD) (htrace : ∀ p ∈ trace, 0 ≤ p.1)
    (hs : 0 ≤ s.accumulatedTime ∧ s.accumulatedTime < step) :
    0 ≤ (runTicks step maxU maxFD s trace).accumulatedTime ∧
      (runTicks step maxU maxFD s trace).accumulatedTime < step := by
  induction trace generalizing s with
  | nil => simpa [runTicks] using hs
  | cons f rest ih =>
      unfold runTicks
      by_cases hr : s.running
      · simp only [hr, if_pos]
        refine ih _ (fun p hp => htrace p (List.mem_cons_of_mem _ hp)) ?_
        refine runTick_acc_bounds step maxU maxFD s f.1 f.2 hstep ?_
        have h1 : 0 ≤ f.1 := htrace f (List.mem_cons_self _ _)
        have h2 : 0 ≤ min f.1 maxFD := le_min h1 hFD
        linarith [hs.1]
      · simpa [hr] using hs

/-! ## Claim theorems for the fixed-timestep loop -/

/-- C1: starting from an empty accumulator, a tick with fixedTimeStep =
1/60, maxFixedUpdatesPerTick = 10 and a single frame delta of 1.0 second
invokes fixedUpdate exactly 10 times, sets the lagging flag, and leaves
accumulatedTime equal to (1.0 - 10/60) mod (1/60). -/
theorem c1_fixed_step_determinism_under_lag :
    (runTick (1/60) 10 1 initialLoopState 1 []).2.fixedUpdateCount = 10 ∧
      (runTick (1/60) 10 1 initialLoopState 1 []).1.lagging = true ∧
      (runTick (1/60) 10 1 initialLoopState 1 []).1.accumulatedTime
        = fmod (1 - 10 * (1/60)) (1/60) := by
  refine ⟨?_, ?_, ?_⟩ <;>
    norm_num [runTick, initialLoopState, handleEvents, catchUp, fmod]

/-- C3: after every tick of a loop run started from the initial state with
a positive fixed time step, a nonnegative frame-delta clamp and
nonnegative measured deltas, accumulatedTime lies in [0, fixedTimeStep),
so the interpolation factor accumulatedTime / fixedTimeStep passed to
render lies in [0, 1). -/
theorem c3_accumulator_invariant (step : ℚ) (maxU : Nat) (maxFD : ℚ)
    (trace : List (ℚ × List SdlEvent)) (hstep : 0 < step) (hFD : 0 ≤ maxFD)
    (htrace : ∀ p ∈ trace, 0 ≤ p.1) (hne : trace ≠ []) :
    (0 ≤ (runTicks step maxU maxFD initialLoopState trace).accumulatedTime ∧
        (runTicks step maxU maxFD initialLoopState trace).accumulatedTime < step) ∧
      0 ≤ (runTicks step maxU maxFD initialLoopState trace).accumulatedTime / step ∧
        (runTicks step maxU maxFD initialLoopState trace).accumulatedTime / step < 1 := by
  obtain ⟨f, rest, rfl⟩ : ∃ f rest, trace = f :: rest := by
    cases trace with
    | nil => exact absurd rfl hne
    | cons f rest => exact ⟨f, rest, rfl⟩
  have hfirst : 0 ≤ (runTick step maxU maxFD initialLoopState f.1 f.2).1.accumulatedTime ∧
      (runTick step maxU maxFD initialLoopState f.1 f.2).1.accumulatedTime < step := by
    refine runTick_acc_bounds step maxU maxFD initialLoopState f.1 f.2 hstep ?_
    have h1 : 0 ≤ f.1 := htrace f (List.mem_cons_self _ _)
    have h2 : 0 ≤ min f.1 maxFD := le_min h1 hFD
    simp only [initialLoopState]
    linarith
  have hmain : 0 ≤ (runTicks step maxU maxFD initialLoopState (f :: rest)).accumulatedTime ∧
      (runTicks step maxU maxFD initialLoopState (f :: rest)).accumulatedTime < step := by
    unfold runTicks
    simp only [initialLoopState, if_pos]
    exact runTicks_acc_bounds step maxU maxFD rest _ hstep hFD
      (fun p hp => htrace p (List.mem_cons_of_mem _ hp)) hfirst
  refine ⟨hmain, div_nonneg hmain.1 hstep.le, ?_⟩
  exact (div_lt_one hstep).mpr hmain.2

/-- Witness for c3_accumulator_invariant at fixedTimeStep = 1/60,
maxFixedUpdatesPerTick = 10, maxFrameTime = 1 and a single 1-second
frame. -/
theorem c3_accumulator_invariant_witness :
    (0 ≤ (runTicks (1/60) 10 1 initialLoopState [(1, [])]).accumulatedTime ∧
        (runTicks (1/60) 10 1 initialLoopState [(1, [])]).accumulatedTime < 1/60) ∧
      0 ≤ (runTicks (1/60) 10 1 initialLoopState [(1, [])]).accumulatedTime / (1/60) ∧
        (runTicks (1/60) 10 1 initialLoopState [(1, [])]).accumulatedTime / (1/60) < 1 :=
  c3_accumulator_invariant (1/60) 10 1 [(1, [])] (by norm_num) (by norm_num)
    (by intro p hp; simp at hp; simp [hp]) (by simp)

theorem handleEvents_append_quit (pre post : List SdlEvent)
    (h : SdlEvent.quit ∉ pre) :
    handleEvents (pre ++ SdlEvent.quit :: post) = (false, pre) := by
  induction pre with
  | nil => simp [handleEvents]
  | cons e rest ih =>
      have he : e ≠ SdlEvent.quit := fun hq => h (hq ▸ List.mem_cons_self _ _)
      have hrest : SdlEvent.quit ∉ rest := fun hq => h (List.mem_cons_of_mem _ hq)
      cases e with
      | quit => exact absurd rfl he
      | _ => simp [handleEvents, ih hrest]

/-- C5 counterexample: a concrete tick whose event queue is a single quit
event, with 1/30 second on the accumulator.  Event pumping does end and
the running flag drops, but the tick still performs 2 fixedUpdate calls,
the variable update and the render, refuting the claim that those steps
are skipped for that tick. -/
theorem c5_counterexample :
    (runTick (1/60) 10 1 initialLoopState (1/30) [SdlEvent.quit]).1.running = false ∧
      (runTick (1/60) 10 1 initialLoopState (1/30) [SdlEvent.quit]).2.fixedUpdateCount = 2 ∧
      (runTick (1/60) 10 1 initialLoopState (1/30) [SdlEvent.quit]).2.updateRan = true ∧
      (runTick (1/60) 10 1 initialLoopState (1/30) [SdlEvent.quit]).2.renderRan = true := by
  refine ⟨?_, ?_, ?_, ?_⟩ <;>
    norm_num [runTick, initialLoopState, handleEvents, catchUp, fmod]

/-- C5 as amended: a quit-type event ends event pumping immediately (the
events before it are the only ones forwarded) and schedules loop
termination (running becomes false, so the loop exits at the next
top-of-loop check), but the remaining steps of the current iteration still
execute: the catch-up loop, the variable update and the render all run. -/
theorem c5_amended_quit_semantics (step : ℚ) (maxU : Nat) (maxFD : ℚ) (s : LoopState)
    (elapsed : ℚ) (pre post : List SdlEvent) (h : SdlEvent.quit ∉ pre) :
    (runTick step maxU maxFD s elapsed (pre ++ SdlEvent.quit :: post)).1.running = false ∧
      (runTick step maxU maxFD s elapsed (pre ++ SdlEvent.quit :: post)).2.forwarded = pre ∧
      (runTick step maxU maxFD s elapsed (pre ++ SdlEvent.quit :: post)).2.fixedUpdateCount
        = (catchUp step maxU (s.accumulatedTime + min elapsed maxFD)).2 ∧
      (runTick step maxU maxFD s elapsed (pre ++ SdlEvent.quit :: post)).2.updateRan = true ∧
      (runTick step maxU maxFD s elapsed (pre ++ SdlEvent.quit :: post)).2.renderRan = true := by
  unfold runTick
  simp [handleEvents_append_quit pre post h]

/-- Witness for c5_amended_quit_semantics on a concrete tick: one
non-quit event before the quit event, one after. -/
theorem c5_amended_quit_semantics_witness :
    (runTick (1/60) 10 1 initialLoopState (1/30)
        ([SdlEvent.keyDown 4 false] ++ SdlEvent.quit :: [SdlEvent.other])).1.running = false ∧
      (runTick (1/60) 10 1 initialLoopState (1/30)
          ([SdlEvent.keyDown 4 false] ++ SdlEvent.quit :: [SdlEvent.other])).2.forwarded
        = [SdlEvent.keyDown 4 false] ∧
      (runTick (1/60) 10 1 initialLoopState (1/30)
          ([SdlEvent.keyDown 4 false] ++ SdlEvent.quit :: [SdlEvent.other])).2.fixedUpdateCount
        = (catchUp (1/60) 10 (initialLoopState.accumulatedTime + min (1/30) 1)).2 ∧
      (runTick (1/60) 10 1 initialLoopState (1/30)
          ([SdlEvent.keyDown 4 false] ++ SdlEvent.quit :: [SdlEvent.other])).2.updateRan = true ∧
      (runTick (1/60) 10 1 initialLoopState (1/30)
          ([SdlEvent.keyDown 4 false] ++ SdlEvent.quit :: [SdlEvent.other])).2.renderRan = true :=
  c5_amended_quit_semantics (1/60) 10 1 initialLoopState (1/30)
    [SdlEvent.keyDown 4 false] [SdlEvent.other] (by simp)

/-! ## Lemmas about the association-list maps -/

theorem findA_eraseA {κ α : Type} [DecidableEq κ] (m : List (κ × α)) (k : κ) :
    findA (eraseA m k) k = none := by
  induction m with
  | nil => simp [eraseA, findA]
  | cons p rest ih =>
      by_cases hk : p.1 = k
      · simpa [eraseA, hk] using ih
      · simpa [eraseA, findA, hk] using ih

theorem findA_setA_self {κ α : Type} [DecidableEq κ] (m : List (κ × α)) (k : κ)
    (f : α → α) (d : α) :
    findA (setA m k f d) k = some (f ((findA m k).getD d)) := by
  induction m with
  | nil => simp [setA, findA]
  | cons p rest ih =>
      by_cases hk : p.1 = k
      · simp [setA, findA, hk]
      · simpa [setA, findA, hk] using ih

theorem findA_setA_ne {κ α : Type} [DecidableEq κ] (m : List (κ × α)) (k k' : κ)
    (f : α → α) (d : α) (h : k ≠ k') :
    findA (setA m k f d) k' = findA m k' := by
  induction m with
  | nil => simp [setA, findA, h]
  | cons p rest ih =>
      by_cases hk : p.1 = k
      · simp [setA, findA, hk, h]
      · by_cases hk2 : p.1 = k'
        · simp [setA, findA, hk, hk2, Ne.symm h]
        · simpa [setA, findA, hk, hk2] using ih

theorem findA_mapVals {κ α : Type} [DecidableEq κ] (f : α → α) (m : List (κ × α)) (k : κ) :
    findA (mapVals f m) k = (findA m k).map f := by
  induction m with
  | nil => simp [mapVals, findA]
  | cons p rest ih =>
      by_cases hk : p.1 = k
      · simp [mapVals, findA, hk]
      · simpa [mapVals, findA, hk] using ih

/-! ## Claim theorems for the button state machine -/

/-- C2: the per-tick state recomputation of a tracked button record at time
now with hold threshold h (seconds, compared against the elapsed press
time converted by the performance-counter frequency) yields exactly Held,
Down, Clicked, Released or Up by the claimed case analysis, with the
threshold boundary inclusive of Held and Released, and afterwards wasDown
equals isDown. -/
theorem c2_button_state_rule (freq h now : ℚ) (b : ButtonData) :
    ((updateButton freq h now b).state = ButtonState.Held ↔
      b.isDown = true ∧ h ≤ ticksToSeconds freq (now - b.pressTime)) ∧
    ((updateButton freq h now b).state = ButtonState.Down ↔
      b.isDown = true ∧ ticksToSeconds freq (now - b.pressTime) < h) ∧
    ((updateButton freq h now b).state = ButtonState.Clicked ↔
      b.isDown = false ∧ b.wasDown = true ∧ ticksToSeconds freq (now - b.pressTime) < h) ∧
    ((updateButton freq h now b).state = ButtonState.Released ↔
      b.isDown = false ∧ b.wasDown = true ∧ h ≤ ticksToSeconds freq (now - b.pressTime)) ∧
    ((updateButton freq h now b).state = ButtonState.Up ↔
      b.isDown = false ∧ b.wasDown = false) ∧
    (updateButton freq h now b).wasDown = b.isDown := by
  rcases le_or_lt h (ticksToSeconds freq (now - b.pressTime)) with hc | hc
  · cases hd : b.isDown <;> cases hw : b.wasDown <;>
      simp [updateButton, hd, hw, hc, not_lt.mpr hc]
  · cases hd : b.isDown <;> cases hw : b.wasDown <;>
      simp [updateButton, hd, hw, hc, not_le.mpr hc]

/-- C6 counterexample: gamepad button 7 of joystick 1 is pressed at time 0
(record created with pressTime 0 and isDown true) and a second press event
for the same unit arrives at time 5 with no intervening release.  The
second press restamps pressTime to 5, so the hold duration is measured
from the second press, refuting the claim that pressTime is left
unchanged for every input unit. -/
theorem c6_counterexample :
    (InputManager.handleEvent ({} : InputManager) (SdlEvent.gamepadDown 7 1) 0).gamepadButtons
        = [(1, [(7, { isDown := true, wasDown := false, pressTime := 0,
                      state := ButtonState.Up })])] ∧
      (InputManager.handleEvent
          (InputManager.handleEvent ({} : InputManager) (SdlEvent.gamepadDown 7 1) 0)
          (SdlEvent.gamepadDown 7 1) 5).gamepadButtons
        = [(1, [(7, { isDown := true, wasDown := false, pressTime := 5,
                      state := ButtonState.Up })])] := by
  constructor <;>
    simp [InputManager.handleEvent, InputManager.onGamepadPress, setA]

/-- C6 as amended: only keyboard press events carrying the repeat flag are
ignored: InputManager::handleEvent drops a repeated key-down event
entirely, leaving every record (in particular pressTime) unchanged, so a
key-repeat press while the key is already down keeps the hold duration
measured from the first press.  Press events without the repeat flag —
including every mouse and gamepad press — restamp pressTime even when the
unit is already down (see the counterexample). -/
theorem c6_amended_key_repeat_ignored (m : InputManager) (key : Nat) (now : ℚ) :
    m.handleEvent (SdlEvent.keyDown key true) now = m :=
  rfl

/-- C7: processing a device-removed event for a joystick id purges every
button and axis record of that joystick immediately: afterwards every
button query for that joystick id returns Up (and false for
clicked/held/down/released) and every axis query returns raw 0 and
normalized 0, exactly as for a unit that was never seen. -/
theorem c7_device_removal_purge (m : InputManager) (now : ℚ) (jid button axis : Nat) :
    (m.handleEvent (SdlEvent.gamepadRemoved jid) now).getGamepadButtonState button jid
        = ButtonState.Up ∧
      (m.handleEvent (SdlEvent.gamepadRemoved jid) now).isGamepadClicked button jid = false ∧
      (m.handleEvent (SdlEvent.gamepadRemoved jid) now).isGamepadHeld button jid = false ∧
      (m.handleEvent (SdlEvent.gamepadRemoved jid) now).isGamepadDown button jid = false ∧
      (m.handleEvent (SdlEvent.gamepadRemoved jid) now).isGamepadReleased button jid = false ∧
      (m.handleEvent (SdlEvent.gamepadRemoved jid) now).getAxisRaw axis jid = 0 ∧
      (m.handleEvent (SdlEvent.gamepadRemoved jid) now).getAxisNormalized axis jid = 0 := by
  have hb : findA (m.handleEvent (SdlEvent.gamepadRemoved jid) now).gamepadButtons jid
      = none := by
    simpa [InputManager.handleEvent] using findA_eraseA m.gamepadButtons jid
  have ha : findA (m.handleEvent (SdlEvent.gamepadRemoved jid) now).axes jid = none := by
    simpa [InputManager.handleEvent] using findA_eraseA m.axes jid
  have hst : (m.handleEvent (SdlEvent.gamepadRemoved jid) now).getGamepadButtonState button jid
      = ButtonState.Up := by
    simp [InputManager.getGamepadButtonState, hb]
  have hraw : (m.handleEvent (SdlEvent.gamepadRemoved jid) now).getAxisRaw axis jid = 0 := by
    simp [InputManager.getAxisRaw, ha]
  refine ⟨hst, ?_, ?_, ?_, ?_, hraw, ?_⟩
  · simp [InputManager.isGamepadClicked, hst]
  · simp [InputManager.isGamepadHeld, hst]
  · simp [InputManager.isGamepadDown, hst]
  · simp [InputManager.isGamepadReleased, hst]
  · simp [InputManager.getAxisNormalized, hraw]

/-- A concrete manager for claim C4: joystick 1 currently reports gamepad
button 7 in state Down, and the action "jump" holds a single
GamepadButton binding whose stored joystickId is the wildcard 0. -/
def c4Manager : InputManager :=
  { gamepadButtons := [(1, [(7, { isDown := true, wasDown := true, pressTime := 0,
                                  state := ButtonState.Down })])],
    actions := [("jump", { bindings := [Binding.gamepad 7 0] })] }

/-- C4 counterexample: with joystick 1 holding a record for button 7 in
state Down and the action bound with joystickId 0, the down query on the
action returns false, although a currently known joystick id (1) has a
record for that button in the queried state — refuting the wildcard
reading of joystickId 0. -/
theorem c4_counterexample :
    c4Manager.isActionDown "jump" = false ∧ c4Manager.isGamepadDown 7 1 = true := by
  constructor <;>
    simp [c4Manager, InputManager.isActionDown, InputManager.forEachBinding, findA,
      anyBinding, InputManager.bindingDown, InputManager.isGamepadDown,
      InputManager.getGamepadButtonState]

/-- C4 as amended: the stored joystickId of a GamepadButton binding is
used literally as the map key of the query, including the value 0: each
action query on an action whose single binding is GamepadButton(btn, jid)
equals the per-device query for exactly joystick id jid, regardless of
what other joysticks report. -/
theorem c4_amended_literal_joystick_id (m : InputManager) (name : String) (btn jid : Nat)
    (h : findA m.actions name = some { bindings := [Binding.gamepad btn jid] }) :
    m.isActionClicked name = m.isGamepadClicked btn jid ∧
      m.isActionHeld name = m.isGamepadHeld btn jid ∧
      m.isActionDown name = m.isGamepadDown btn jid ∧
      m.isActionReleased name = m.isGamepadReleased btn jid := by
  have key : ∀ f : Binding → Bool,
      m.forEachBinding name f = f (Binding.gamepad btn jid) := by
    intro f
    cases hfb : f (Binding.gamepad btn jid) <;>
      simp [InputManager.forEachBinding, h, anyBinding, hfb]
  exact ⟨key (m.bindingClicked), key (m.bindingHeld), key (m.bindingDown),
    key (m.bindingReleased)⟩

/-- Witness for c4_amended_literal_joystick_id at the concrete manager of
the counterexample: the "jump" queries coincide with the per-device
queries at the literal joystick id 0. -/
theorem c4_amended_literal_joystick_id_witness :
    c4Manager.isActionClicked "jump" = c4Manager.isGamepadClicked 7 0 ∧
      c4Manager.isActionHeld "jump" = c4Manager.isGamepadHeld 7 0 ∧
      c4Manager.isActionDown "jump" = c4Manager.isGamepadDown 7 0 ∧
      c4Manager.isActionReleased "jump" = c4Manager.isGamepadReleased 7 0 :=
  c4_amended_literal_joystick_id c4Manager "jump" 7 0 (by simp [c4Manager, findA])

theorem anyBinding_eq_any (f : Binding → Bool) (l : List Binding) :
    anyBinding f l = l.any f := by
  induction l with
  | nil => simp [anyBinding]
  | cons b rest ih => cases hfb : f b <;> simp [anyBinding, hfb, ih]

/-- C8: every action query is the short-circuit disjunction, in insertion
order, of the per-binding queries (List.any over the binding list), and
an absent action name or an empty binding list yields false for every
query. -/
theorem c8_action_or_aggregation (m : InputManager) (name : String) :
    (m.isActionClicked name = (match findA m.actions name with
        | none => false
        | some act => act.bindings.any m.bindingClicked) ∧
      m.isActionHeld name = (match findA m.actions name with
        | none => false
        | some act => act.bindings.any m.bindingHeld) ∧
      m.isActionDown name = (match findA m.actions name with
        | none => false
        | some act => act.bindings.any m.bindingDown) ∧
      m.isActionReleased name = (match findA m.actions name with
        | none => false
        | some act => act.bindings.any m.bindingReleased)) ∧
    (findA m.actions name = none →
      m.isActionClicked name = false ∧ m.isActionHeld name = false ∧
        m.isActionDown name = false ∧ m.isActionReleased name = false) ∧
    (∀ act : Action, findA m.actions name = some act → act.bindings = [] →
      m.isActionClicked name = false ∧ m.isActionHeld name = false ∧
        m.isActionDown name = false ∧ m.isActionReleased name = false) := by
  have key : ∀ f : Binding → Bool,
      m.forEachBinding name f = (match findA m.actions name with
        | none => false
        | some act => act.bindings.any f) := by
    intro f
    cases hf : findA m.actions name <;>
      simp [InputManager.forEachBinding, hf, anyBinding_eq_any]
  refine ⟨⟨key _, key _, key _, key _⟩, ?_, ?_⟩
  · intro hf
    refine ⟨?_, ?_, ?_, ?_⟩ <;>
      simp [InputManager.isActionClicked, InputManager.isActionHeld,
        InputManager.isActionDown, InputManager.isActionReleased,
        InputManager.forEachBinding, hf]
  · intro act hf hempty
    refine ⟨?_, ?_, ?_, ?_⟩ <;>
      simp [InputManager.isActionClicked, InputManager.isActionHeld,
        InputManager.isActionDown, InputManager.isActionReleased,
        InputManager.forEachBinding, hf, hempty, anyBinding]

/-- A concrete manager for the C8 witness: one action "fire" with a key
binding and a gamepad binding. -/
def c8Manager : InputManager :=
  { actions := [("fire", { bindings := [Binding.key 3, Binding.gamepad 7 0] })] }

/-- Witness for c8_action_or_aggregation at c8Manager, queried both under
an unregistered name and under the registered one. -/
theorem c8_action_or_aggregation_witness :
    c8Manager.isActionDown "other" = false ∧
      c8Manager.isActionDown "fire"
        = (c8Manager.bindingDown (Binding.key 3) ||
            c8Manager.bindingDown (Binding.gamepad 7 0)) := by
  constructor
  · exact ((c8_action_or_aggregation c8Manager "other").2.1
      (by simp [c8Manager, findA])).2.2.1
  · have h := ((c8_action_or_aggregation c8Manager "fire").1).2.2.1
    simpa [c8Manager, findA, List.any] using h

/-- C9: for a stored raw axis value in the Sint16 range, the normalized
axis value lies in [-1, 1]; raw 32767 maps to exactly 1, raw -32768 to
exactly -1, and raw 0 to 0 (the code multiplies by a precomputed
reciprocal, so no division is performed at query time at all: divisor
32767 for raw >= 0, divisor 32768 for raw < 0). -/
theorem c9_axis_normalization (m : InputManager) (a jid : Nat)
    (h1 : -32768 ≤ m.getAxisRaw a jid) (h2 : m.getAxisRaw a jid ≤ 32767) :
    (m.getAxisNormalized a jid
        = (m.getAxisRaw a jid : ℚ) *
            (if 0 ≤ m.getAxisRaw a jid then 1 / 32767 else 1 / 32768)) ∧
      (-1 ≤ m.getAxisNormalized a jid ∧ m.getAxisNormalized a jid ≤ 1) ∧
      (m.getAxisRaw a jid = 32767 → m.getAxisNormalized a jid = 1) ∧
      (m.getAxisRaw a jid = -32768 → m.getAxisNormalized a jid = -1) ∧
      (m.getAxisRaw a jid = 0 → m.getAxisNormalized a jid = 0) := by
  have hdef : m.getAxisNormalized a jid
      = (m.getAxisRaw a jid : ℚ) *
          (if 0 ≤ m.getAxisRaw a jid then 1 / 32767 else 1 / 32768) := rfl
  have hbounds : -1 ≤ m.getAxisNormalized a jid ∧ m.getAxisNormalized a jid ≤ 1 := by
    rw [hdef]
    rcases le_or_lt 0 (m.getAxisRaw a jid) with hpos | hneg
    · rw [if_pos hpos, mul_one_div]
      have hq1 : (0 : ℚ) ≤ (m.getAxisRaw a jid : ℚ) := by exact_mod_cast hpos
      have hq2 : (m.getAxisRaw a jid : ℚ) ≤ 32767 := by exact_mod_cast h2
      constructor
      · calc (-1 : ℚ) ≤ 0 := by norm_num
          _ ≤ (m.getAxisRaw a jid : ℚ) / 32767 := by positivity
      · rw [div_le_one (by norm_num : (0:ℚ) < 32767)]
        exact hq2
    · rw [if_neg (not_le.mpr hneg), mul_one_div]
      have hq1 : (-32768 : ℚ) ≤ (m.getAxisRaw a jid : ℚ) := by exact_mod_cast h1
      have hq2 : (m.getAxisRaw a jid : ℚ) < 0 := by exact_mod_cast hneg
      constructor
      · rw [le_div_iff₀ (by norm_num : (0:ℚ) < 32768)]
        linarith
      · have hle : (m.getAxisRaw a jid : ℚ) / 32768 ≤ 0 :=
          div_nonpos_iff.mpr (Or.inr ⟨hq2.le, by norm_num⟩)
        linarith
  refine ⟨hdef, hbounds, ?_, ?_, ?_⟩
  · intro hmax
    rw [hdef, hmax]
    norm_num
  · intro hmin
    rw [hdef, hmin]
    norm_num
  · intro hzero
    rw [hdef, hzero]
    norm_num

/-- A concrete manager for the C9 witness: joystick 1 reports raw value
32767 on axis 0. -/
def c9Manager : InputManager :=
  { axes := [(1, [(0, { value := 32767, scale := 1 })])] }

/-- Witness for c9_axis_normalization at c9Manager. -/
theorem c9_axis_normalization_witness :
    (c9Manager.getAxisNormalized 0 1
        = (c9Manager.getAxisRaw 0 1 : ℚ) *
            (if 0 ≤ c9Manager.getAxisRaw 0 1 then 1 / 32767 else 1 / 32768)) ∧
      (-1 ≤ c9Manager.getAxisNormalized 0 1 ∧ c9Manager.getAxisNormalized 0 1 ≤ 1) ∧
      (c9Manager.getAxisRaw 0 1 = 32767 → c9Manager.getAxisNormalized 0 1 = 1) ∧
      (c9Manager.getAxisRaw 0 1 = -32768 → c9Manager.getAxisNormalized 0 1 = -1) ∧
      (c9Manager.getAxisRaw 0 1 = 0 → c9Manager.getAxisNormalized 0 1 = 0) :=
  c9_axis_normalization c9Manager 0 1
    (by simp [c9Manager, InputManager.getAxisRaw, findA])
    (by simp [c9Manager, InputManager.getAxisRaw, findA])

/-! ## Claim C10: Clicked and Released last exactly one tick -/

/-- The keyboard record of input unit k is either absent or has both
isDown and wasDown cleared — the configuration a record is left in right
after an update that classified it Clicked or Released. -/
def keyRecordIdle (m : InputManager) (k : Nat) : Prop :=
  ∀ b : ButtonData, findA m.keyboardButtons k = some b →
    b.isDown = false ∧ b.wasDown = false

theorem update_keyboardButtons (m : InputManager) (freq now : ℚ) :
    (m.update freq now).keyboardButtons
      = mapVals (updateButton freq m.holdThreshold now) m.keyboardButtons :=
  rfl

theorem updateButton_transient (freq h now : ℚ) (b : ButtonData)
    (hst : (updateButton freq h now b).state = ButtonState.Clicked ∨
      (updateButton freq h now b).state = ButtonState.Released) :
    (updateButton freq h now b).isDown = false ∧
      (updateButton freq h now b).wasDown = false := by
  cases hd : b.isDown
  · constructor <;> simp [updateButton, hd]
  · exfalso
    rcases le_or_lt h (ticksToSeconds freq (now - b.pressTime)) with hc | hc <;>
      rcases hst with hst | hst
    · simp [updateButton, hd, hc] at hst
    · simp [updateButton, hd, hc] at hst
    · simp [updateButton, hd, not_le.mpr hc] at hst
    · simp [updateButton, hd, not_le.mpr hc] at hst

theorem handleEvent_keyRecordIdle (m : InputManager) (e : SdlEvent) (now : ℚ) (k : Nat)
    (he : ∀ rep, e ≠ SdlEvent.keyDown k rep) (hm : keyRecordIdle m k) :
    keyRecordIdle (m.handleEvent e now) k := by
  cases e with
  | keyDown key rep =>
      have hkey : key ≠ k := by
        intro hk
        exact he rep (by rw [hk])
      cases rep
      · intro b hb
        rw [show (m.handleEvent (SdlEvent.keyDown key false) now).keyboardButtons
            = setA m.keyboardButtons key
                (fun b => { b with isDown := true, pressTime := now }) {} from rfl] at hb
        rw [findA_setA_ne _ _ _ _ _ hkey] at hb
        exact hm b hb
      · exact hm
  | keyUp key =>
      by_cases hkey : key = k
      · subst hkey
        intro b hb
        rw [show (m.handleEvent (SdlEvent.keyUp key) now).keyboardButtons
            = setA m.keyboardButtons key (fun b => { b with isDown := false }) {} from rfl,
          findA_setA_self] at hb
        have hbe := Option.some.inj hb
        subst hbe
        refine ⟨rfl, ?_⟩
        cases hf : findA m.keyboardButtons key with
        | none => simp [hf]
        | some b0 => simpa [hf] using (hm b0 hf).2
      · intro b hb
        rw [show (m.handleEvent (SdlEvent.keyUp key) now).keyboardButtons
            = setA m.keyboardButtons key (fun b => { b with isDown := false }) {} from rfl,
          findA_setA_ne _ _ _ _ _ hkey] at hb
        exact hm b hb
  | quit => exact hm
  | mouseDown button => exact hm
  | mouseUp button => exact hm
  | gamepadDown button which => exact hm
  | gamepadUp button which => exact hm
  | gamepadAxis which axis value => exact hm
  | gamepadRemoved which => exact hm
  | other => exact hm

theorem foldl_keyRecordIdle (evs : List (SdlEvent × ℚ)) (m : InputManager) (k : Nat)
    (hevs : ∀ p ∈ evs, ∀ rep, p.1 ≠ SdlEvent.keyDown k rep) (hm : keyRecordIdle m k) :
    keyRecordIdle (evs.foldl (fun acc p => acc.handleEvent p.1 p.2) m) k := by
  induction evs generalizing m with
  | nil => simpa using hm
  | cons p rest ih =>
      simp only [List.foldl_cons]
      exact ih _ (fun q hq => hevs q (List.mem_cons_of_mem _ hq))
        (handleEvent_keyRecordIdle m p.1 p.2 k (hevs p (List.mem_cons_self _ _)) hm)

theorem update_idle_up (m : InputManager) (freq now : ℚ) (k : Nat)
    (hm : keyRecordIdle m k) :
    (m.update freq now).getKeyButtonState k = ButtonState.Up := by
  have hkb : findA (m.update freq now).keyboardButtons k
      = (findA m.keyboardButtons k).map (updateButton freq m.holdThreshold now) := by
    rw [update_keyboardButtons]
    exact findA_mapVals _ _ _
  cases hf : findA m.keyboardButtons k with
  | none => simp [InputManager.getKeyButtonState, hkb, hf]
  | some b0 =>
      obtain ⟨h1, h2⟩ := hm b0 hf
      simp [InputManager.getKeyButtonState, hkb, hf, updateButton, h1, h2]

theorem findA_eraseA_ne {κ α : Type} [DecidableEq κ] (m : List (κ × α)) (k k' : κ)
    (h : k ≠ k') :
    findA (eraseA m k) k' = findA m k' := by
  induction m with
  | nil => simp [eraseA]
  | cons p rest ih =>
      by_cases hk : p.1 = k
      · simp [eraseA, findA, hk, h, ih]
      · simp [eraseA, findA, hk, ih]

/-- The mouse record of input unit btn is either absent or has both
isDown and wasDown cleared. -/
def mouseRecordIdle (m : InputManager) (btn : Nat) : Prop :=
  ∀ b : ButtonData, findA m.mouseButtons btn = some b →
    b.isDown = false ∧ b.wasDown = false

/-- The gamepad record of button btn on joystick jid, through the nested
per-joystick map (the lookup path of getButtonState at
input_manager.cpp:335-346). -/
def findGamepadRecord (m : InputManager) (jid btn : Nat) : Option ButtonData :=
  match findA m.gamepadButtons jid with
  | none => none
  | some inner => findA inner btn

/-- The gamepad record of (jid, btn) is either absent or has both isDown
and wasDown cleared. -/
def gamepadRecordIdle (m : InputManager) (jid btn : Nat) : Prop :=
  ∀ b : ButtonData, findGamepadRecord m jid btn = some b →
    b.isDown = false ∧ b.wasDown = false

theorem update_mouseButtons (m : InputManager) (freq now : ℚ) :
    (m.update freq now).mouseButtons
      = mapVals (updateButton freq m.holdThreshold now) m.mouseButtons :=
  rfl

theorem update_gamepadButtons (m : InputManager) (freq now : ℚ) :
    (m.update freq now).gamepadButtons
      = mapVals (mapVals (updateButton freq m.holdThreshold now)) m.gamepadButtons :=
  rfl

theorem handleEvent_mouseRecordIdle (m : InputManager) (e : SdlEvent) (now : ℚ)
    (btn : Nat) (he : e ≠ SdlEvent.mouseDown btn) (hm : mouseRecordIdle m btn) :
    mouseRecordIdle (m.handleEvent e now) btn := by
  cases e with
  | mouseDown button =>
      have hbtn : button ≠ btn := by
        intro hk
        exact he (by rw [hk])
      intro b hb
      rw [show (m.handleEvent (SdlEvent.mouseDown button) now).mouseButtons
          = setA m.mouseButtons button
              (fun b => { b with isDown := true, pressTime := now }) {} from rfl,
        findA_setA_ne _ _ _ _ _ hbtn] at hb
      exact hm b hb
  | mouseUp button =>
      by_cases hbtn : button = btn
      · subst hbtn
        intro b hb
        rw [show (m.handleEvent (SdlEvent.mouseUp button) now).mouseButtons
            = setA m.mouseButtons button (fun b => { b with isDown := false }) {} from rfl,
          findA_setA_self] at hb
        have hbe := Option.some.inj hb
        subst hbe
        refine ⟨rfl, ?_⟩
        cases hf : findA m.mouseButtons button with
        | none => simp [hf]
        | some b0 => simpa [hf] using (hm b0 hf).2
      · intro b hb
        rw [show (m.handleEvent (SdlEvent.mouseUp button) now).mouseButtons
            = setA m.mouseButtons button (fun b => { b with isDown := false }) {} from rfl,
          findA_setA_ne _ _ _ _ _ hbtn] at hb
        exact hm b hb
  | quit => exact hm
  | keyDown key rep =>
      cases rep
      · exact hm
      · exact hm
  | keyUp key => exact hm
  | gamepadDown button which => exact hm
  | gamepadUp button which => exact hm
  | gamepadAxis which axis value => exact hm
  | gamepadRemoved which => exact hm
  | other => exact hm

theorem handleEvent_gamepadRecordIdle (m : InputManager) (e : SdlEvent) (now : ℚ)
    (jid btn : Nat) (he : e ≠ SdlEvent.gamepadDown btn jid)
    (hm : gamepadRecordIdle m jid btn) :
    gamepadRecordIdle (m.handleEvent e now) jid btn := by
  cases e with
  | gamepadDown button which =>
      by_cases hw : which = jid
      · subst hw
        have hbtn : button ≠ btn := by
          intro hk
          exact he (by rw [hk])
        intro b hb
        unfold findGamepadRecord at hb
        rw [show (m.handleEvent (SdlEvent.gamepadDown button which) now).gamepadButtons
            = setA m.gamepadButtons which
                (fun inner => setA inner button
                  (fun b => { b with isDown := true, pressTime := now }) {})
                [] from rfl] at hb
        rw [findA_setA_self] at hb
        simp only at hb
        rw [findA_setA_ne _ _ _ _ _ hbtn] at hb
        cases hfo : findA m.gamepadButtons which with
        | none => rw [hfo] at hb; exact absurd hb (by simp [findA])
        | some inner =>
            rw [hfo] at hb
            exact hm b (by unfold findGamepadRecord; rw [hfo]; exact hb)
      · intro b hb
        unfold findGamepadRecord at hb
        rw [show (m.handleEvent (SdlEvent.gamepadDown button which) now).gamepadButtons
            = setA m.gamepadButtons which
                (fun inner => setA inner button
                  (fun b => { b with isDown := true, pressTime := now }) {})
                [] from rfl] at hb
        rw [findA_setA_ne _ _ _ _ _ hw] at hb
        exact hm b hb
  | gamepadUp button which =>
      by_cases hw : which = jid
      · subst hw
        intro b hb
        unfold findGamepadRecord at hb
        rw [show (m.handleEvent (SdlEvent.gamepadUp button which) now).gamepadButtons
            = setA m.gamepadButtons which
                (fun inner => setA inner button
                  (fun b => { b with isDown := false }) {})
                [] from rfl] at hb
        rw [findA_setA_self] at hb
        simp only at hb
        by_cases hbtn : button = btn
        · subst hbtn
          rw [findA_setA_self] at hb
          have hbe := Option.some.inj hb
          subst hbe
          refine ⟨rfl, ?_⟩
          cases hfo : findA m.gamepadButtons which with
          | none => simp [hfo, findA]
          | some inner =>
              cases hfi : findA inner button with
              | none => simp [hfo, hfi]
              | some b0 =>
                  have hidle := (hm b0 (by
                    unfold findGamepadRecord
                    rw [hfo]
                    exact hfi)).2
                  simp [hfo, hfi, hidle]
        · rw [findA_setA_ne _ _ _ _ _ hbtn] at hb
          cases hfo : findA m.gamepadButtons which with
          | none => rw [hfo] at hb; exact absurd hb (by simp [findA])
          | some inner =>
              rw [hfo] at hb
              exact hm b (by unfold findGamepadRecord; rw [hfo]; exact hb)
      · intro b hb
        unfold findGamepadRecord at hb
        rw [show (m.handleEvent (SdlEvent.gamepadUp button which) now).gamepadButtons
            = setA m.gamepadButtons which
                (fun inner => setA inner button
                  (fun b => { b with isDown := false }) {})
                [] from rfl] at hb
        rw [findA_setA_ne _ _ _ _ _ hw] at hb
        exact hm b hb
  | gamepadRemoved which =>
      by_cases hw : which = jid
      · subst hw
        intro b hb
        unfold findGamepadRecord at hb
        rw [show (m.handleEvent (SdlEvent.gamepadRemoved which) now).gamepadButtons
            = eraseA m.gamepadButtons which from rfl] at hb
        rw [findA_eraseA] at hb
        exact absurd hb (by simp)
      · intro b hb
        unfold findGamepadRecord at hb
        rw [show (m.handleEvent (SdlEvent.gamepadRemoved which) now).gamepadButtons
            = eraseA m.gamepadButtons which from rfl] at hb
        rw [findA_eraseA_ne _ _ _ hw] at hb
        exact hm b hb
  | quit => exact hm
  | keyDown key rep =>
      cases rep
      · exact hm
      · exact hm
  | keyUp key => exact hm
  | mouseDown button => exact hm
  | mouseUp button => exact hm
  | gamepadAxis which axis value => exact hm
  | other => exact hm

theorem foldl_mouseRecordIdle (evs : List (SdlEvent × ℚ)) (m : InputManager) (btn : Nat)
    (hevs : ∀ p ∈ evs, p.1 ≠ SdlEvent.mouseDown btn) (hm : mouseRecordIdle m btn) :
    mouseRecordIdle (evs.foldl (fun acc p => acc.handleEvent p.1 p.2) m) btn := by
  induction evs generalizing m with
  | nil => simpa using hm
  | cons p rest ih =>
      simp only [List.foldl_cons]
      exact ih _ (fun q hq => hevs q (List.mem_cons_of_mem _ hq))
        (handleEvent_mouseRecordIdle m p.1 p.2 btn (hevs p (List.mem_cons_self _ _)) hm)

theorem foldl_gamepadRecordIdle (evs : List (SdlEvent × ℚ)) (m : InputManager)
    (jid btn : Nat) (hevs : ∀ p ∈ evs, p.1 ≠ SdlEvent.gamepadDown btn jid)
    (hm : gamepadRecordIdle m jid btn) :
    gamepadRecordIdle (evs.foldl (fun acc p => acc.handleEvent p.1 p.2) m) jid btn := by
  induction evs generalizing m with
  | nil => simpa using hm
  | cons p rest ih =>
      simp only [List.foldl_cons]
      exact ih _ (fun q hq => hevs q (List.mem_cons_of_mem _ hq))
        (handleEvent_gamepadRecordIdle m p.1 p.2 jid btn
          (hevs p (List.mem_cons_self _ _)) hm)

theorem update_mouse_idle_up (m : InputManager) (freq now : ℚ) (btn : Nat)
    (hm : mouseRecordIdle m btn) :
    (m.update freq now).getMouseButtonState btn = ButtonState.Up := by
  have hkb : findA (m.update freq now).mouseButtons btn
      = (findA m.mouseButtons btn).map (updateButton freq m.holdThreshold now) := by
    rw [update_mouseButtons]
    exact findA_mapVals _ _ _
  cases hf : findA m.mouseButtons btn with
  | none => simp [InputManager.getMouseButtonState, hkb, hf]
  | some b0 =>
      obtain ⟨h1, h2⟩ := hm b0 hf
      simp [InputManager.getMouseButtonState, hkb, hf, updateButton, h1, h2]

theorem update_gamepad_idle_up (m : InputManager) (freq now : ℚ) (jid btn : Nat)
    (hm : gamepadRecordIdle m jid btn) :
    (m.update freq now).getGamepadButtonState btn jid = ButtonState.Up := by
  have hkb : findA (m.update freq now).gamepadButtons jid
      = (findA m.gamepadButtons jid).map
          (mapVals (updateButton freq m.holdThreshold now)) := by
    rw [update_gamepadButtons]
    exact findA_mapVals _ _ _
  cases hfo : findA m.gamepadButtons jid with
  | none => simp [InputManager.getGamepadButtonState, hkb, hfo]
  | some inner =>
      cases hfi : findA inner btn with
      | none =>
          simp [InputManager.getGamepadButtonState, hkb, hfo, findA_mapVals, hfi]
      | some b0 =>
          obtain ⟨h1, h2⟩ := hm b0 (by unfold findGamepadRecord; rw [hfo]; exact hfi)
          simp [InputManager.getGamepadButtonState, hkb, hfo, findA_mapVals, hfi,
            updateButton, h1, h2]

/-- C10: for every tracked button record of every device class (keyboard,
mouse, gamepad), if the record's state is Clicked or Released after an
update and no press event for that unit is handled before the next
update, the next update puts its state back to Up — Clicked and Released
are observable for exactly one tick. -/
theorem c10_clicked_released_single_tick (freq now1 now2 : ℚ) (m : InputManager)
    (evs : List (SdlEvent × ℚ)) :
    (∀ k : Nat, ∀ b : ButtonData,
      findA (m.update freq now1).keyboardButtons k = some b →
      (b.state = ButtonState.Clicked ∨ b.state = ButtonState.Released) →
      (∀ p ∈ evs, ∀ rep, p.1 ≠ SdlEvent.keyDown k rep) →
      ((evs.foldl (fun acc p => acc.handleEvent p.1 p.2) (m.update freq now1)).update
          freq now2).getKeyButtonState k = ButtonState.Up) ∧
    (∀ btn : Nat, ∀ b : ButtonData,
      findA (m.update freq now1).mouseButtons btn = some b →
      (b.state = ButtonState.Clicked ∨ b.state = ButtonState.Released) →
      (∀ p ∈ evs, p.1 ≠ SdlEvent.mouseDown btn) →
      ((evs.foldl (fun acc p => acc.handleEvent p.1 p.2) (m.update freq now1)).update
          freq now2).getMouseButtonState btn = ButtonState.Up) ∧
    (∀ jid btn : Nat, ∀ b : ButtonData,
      findGamepadRecord (m.update freq now1) jid btn = some b →
      (b.state = ButtonState.Clicked ∨ b.state = ButtonState.Released) →
      (∀ p ∈ evs, p.1 ≠ SdlEvent.gamepadDown btn jid) →
      ((evs.foldl (fun acc p => acc.handleEvent p.1 p.2) (m.update freq now1)).update
          freq now2).getGamepadButtonState btn jid = ButtonState.Up) := by
  refine ⟨?_, ?_, ?_⟩
  · intro k b hfound hstate hnopress
    have hidle : keyRecordIdle (m.update freq now1) k := by
      intro b' hb'
      have hb : b' = b := by
        rw [hfound] at hb'
        exact (Option.some.inj hb').symm
      subst hb
      rw [update_keyboardButtons, findA_mapVals] at hfound
      cases hf : findA m.keyboardButtons k with
      | none => rw [hf] at hfound; exact absurd hfound (by simp)
      | some b0 =>
          rw [hf] at hfound
          have hb0 : updateButton freq m.holdThreshold now1 b0 = b' :=
            Option.some.inj hfound
          have htrans := updateButton_transient freq m.holdThreshold now1 b0
            (by rw [hb0]; exact hstate)
          rw [hb0] at htrans
          exact htrans
    exact update_idle_up _ freq now2 k
      (foldl_keyRecordIdle evs (m.update freq now1) k hnopress hidle)
  · intro btn b hfound hstate hnopress
    have hidle : mouseRecordIdle (m.update freq now1) btn := by
      intro b' hb'
      have hb : b' = b := by
        rw [hfound] at hb'
        exact (Option.some.inj hb').symm
      subst hb
      rw [update_mouseButtons, findA_mapVals] at hfound
      cases hf : findA m.mouseButtons btn with
      | none => rw [hf] at hfound; exact absurd hfound (by simp)
      | some b0 =>
          rw [hf] at hfound
          have hb0 : updateButton freq m.holdThreshold now1 b0 = b' :=
            Option.some.inj hfound
          have htrans := updateButton_transient freq m.holdThreshold now1 b0
            (by rw [hb0]; exact hstate)
          rw [hb0] at htrans
          exact htrans
    exact update_mouse_idle_up _ freq now2 btn
      (foldl_mouseRecordIdle evs (m.update freq now1) btn hnopress hidle)
  · intro jid btn b hfound hstate hnopress
    have hidle : gamepadRecordIdle (m.update freq now1) jid btn := by
      intro b' hb'
      have hb : b' = b := by
        rw [hfound] at hb'
        exact (Option.some.inj hb').symm
      subst hb
      unfold findGamepadRecord at hfound
      rw [update_gamepadButtons, findA_mapVals] at hfound
      cases hfo : findA m.gamepadButtons jid with
      | none => rw [hfo] at hfound; exact absurd hfound (by simp)
      | some inner =>
          rw [hfo] at hfound
          simp only [Option.map_some'] at hfound
          rw [findA_mapVals] at hfound
          cases hfi : findA inner btn with
          | none => rw [hfi] at hfound; exact absurd hfound (by simp)
          | some b0 =>
              rw [hfi] at hfound
              have hb0 : updateButton freq m.holdThreshold now1 b0 = b' :=
                Option.some.inj hfound
              have htrans := updateButton_transient freq m.holdThreshold now1 b0
                (by rw [hb0]; exact hstate)
              rw [hb0] at htrans
              exact htrans
    exact update_gamepad_idle_up _ freq now2 jid btn
      (foldl_gamepadRecordIdle evs (m.update freq now1) jid btn hnopress hidle)

/-- A concrete manager for the C10 witness: key 1, mouse button 2 and
gamepad button 4 of joystick 3 were each pressed at time 0 and released
before the update at time 1/10 (so that update classifies all three
Clicked). -/
def c10Manager : InputManager :=
  { keyboardButtons := [(1, { isDown := false, wasDown := true, pressTime := 0,
                              state := ButtonState.Up })],
    mouseButtons := [(2, { isDown := false, wasDown := true, pressTime := 0,
                           state := ButtonState.Up })],
    gamepadButtons := [(3, [(4, { isDown := false, wasDown := true, pressTime := 0,
                                  state := ButtonState.Up })])] }

/-- Witness for c10_clicked_released_single_tick: with frequency 1 the
update at time 1/10 reports key 1, mouse button 2 and gamepad button 4 of
joystick 3 all Clicked; a key-up event at time 1/5 is handled in between;
the next update at time 2/5 reports Up for all three records. -/
theorem c10_clicked_released_single_tick_witness :
    (([(SdlEvent.keyUp 1, 1/5)].foldl (fun acc p => acc.handleEvent p.1 p.2)
          (c10Manager.update 1 (1/10))).update 1 (2/5)).getKeyButtonState 1
        = ButtonState.Up ∧
      (([(SdlEvent.keyUp 1, 1/5)].foldl (fun acc p => acc.handleEvent p.1 p.2)
          (c10Manager.update 1 (1/10))).update 1 (2/5)).getMouseButtonState 2
        = ButtonState.Up ∧
      (([(SdlEvent.keyUp 1, 1/5)].foldl (fun acc p => acc.handleEvent p.1 p.2)
          (c10Manager.update 1 (1/10))).update 1 (2/5)).getGamepadButtonState 4 3
        = ButtonState.Up := by
  refine ⟨(c10_clicked_released_single_tick 1 (1/10) (2/5) c10Manager
      [(SdlEvent.keyUp 1, 1/5)]).1 1
      { isDown := false, wasDown := false, pressTime := 0, state := ButtonState.Clicked }
      ?_ (Or.inl rfl) (by simp),
    (c10_clicked_released_single_tick 1 (1/10) (2/5) c10Manager
      [(SdlEvent.keyUp 1, 1/5)]).2.1 2
      { isDown := false, wasDown := false, pressTime := 0, state := ButtonState.Clicked }
      ?_ (Or.inl rfl) (by simp),
    (c10_clicked_released_single_tick 1 (1/10) (2/5) c10Manager
      [(SdlEvent.keyUp 1, 1/5)]).2.2 3 4
      { isDown := false, wasDown := false, pressTime := 0, state := ButtonState.Clicked }
      ?_ (Or.inl rfl) (by simp)⟩
  · norm_num [c10Manager, InputManager.update, InputManager.updateGamepads,
      InputManager.updateMouseButtons, InputManager.updateKeyboardButtons, mapVals,
      updateButton, ticksToSeconds, findA]
  · norm_num [c10Manager, InputManager.update, InputManager.updateGamepads,
      InputManager.updateMouseButtons, InputManager.updateKeyboardButtons, mapVals,
      updateButton, ticksToSeconds, findA]
  · norm_num [c10Manager, findGamepadRecord, InputManager.update,
      InputManager.updateGamepads, InputManager.updateMouseButtons,
      InputManager.updateKeyboardButtons, mapVals, updateButton, ticksToSeconds, findA]

end PsyEngine
